import Mathlib

/-!
Shallow embedding of the two source files of the book-soundtrack repository,
`src/BookTrack.py` and `src/book_soundtrack.py`, together with theorems that
settle the specification claims about profile parsing, track search,
deduplication, ranking and playlist naming.

Conventions of the embedding:
* Python strings are Lean `String`s; all character-level operations are
  defined on `String.data` (lists of characters) so that every definition is
  executable and every concrete evaluation is decidable.
* Python dictionaries (used for the parsed profile) are association lists
  `List (String × List String)` with Python's semantics: insertion order is
  kept, assigning to an existing key replaces its value in place.
* Network calls (`sp.search`) are modelled by an oracle
  `SearchQuery → Option (List RawItem)`; `none` models the call raising an
  exception, `some items` a successful response.
* Python `int(max_tracks * w)` for the weights `w ∈ {0.3, 0.25, 0.15}` is
  modelled as the exact natural-number floor `max_tracks * (100*w) / 100`.
  For these three IEEE-754 double constants the relative representation
  error is below 2⁻⁵⁴, so `float(max_tracks) * w` rounds to the exact
  rational product whenever that product is representable, and truncation
  agrees with the rational floor for every realistic `max_tracks`.
-/

namespace BookSoundtrackSpec

/-! ### Python string primitives -/

/-- Characters removed by Python's `str.strip()` (the ASCII whitespace set). -/
def pyIsSpace (c : Char) : Bool :=
  c = ' ' || c = '\t' || c = '\n' || c = '\r' || c = '\x0b' || c = '\x0c'

/-- Character-list form of Python's `str.strip()`: drop leading and trailing
whitespace. -/
def stripList (l : List Char) : List Char :=
  ((l.dropWhile pyIsSpace).reverse.dropWhile pyIsSpace).reverse

/-- Python's `line.strip()`. -/
def pyStrip (s : String) : String := String.mk (stripList s.data)

/-- Character-list form of Python's `str.split(sep)` for a one-character
separator: `"a,,b"` splits into `["a", "", "b"]` and `""` into `[""]`. -/
def splitListOn (sep : Char) : List Char → List (List Char)
  | [] => [[]]
  | c :: cs =>
    if c = sep then [] :: splitListOn sep cs
    else
      match splitListOn sep cs with
      | [] => [[c]]
      | r :: rs => (c :: r) :: rs

/-- Python's `s.split(sep)` for a one-character separator. -/
def pySplit (s : String) (sep : Char) : List String :=
  (splitListOn sep s.data).map String.mk

/-- Python's `':' in line`. -/
def hasColon (s : String) : Bool := ':' ∈ s.data

/-- Python's `line.split(':', 1)` under the assumption that the line contains
a colon: the part before the first colon and the part after it. -/
def splitFirstColon (s : String) : String × String :=
  (String.mk (s.data.takeWhile (fun c => c ≠ ':')),
   String.mk ((s.data.dropWhile (fun c => c ≠ ':')).drop 1))

/-- Character-list form of the bracket stripping in both parsers:
`if content.startswith('[') and content.endswith(']'): content = content[1:-1]`. -/
def stripBracketsList (l : List Char) : List Char :=
  if l.head? = some '[' && l.getLast? = some ']' then (l.drop 1).dropLast else l

/-- Bracket stripping on strings. -/
def stripBrackets (s : String) : String := String.mk (stripBracketsList s.data)

/-- Both parsers' `[item.strip() for item in content.split(',')]`. -/
def parseItems (content : String) : List String :=
  (pySplit content ',').map pyStrip

/-! ### Profile dictionaries -/

/-- A parsed profile: Python dict from section name to list of terms,
represented as an insertion-ordered association list. -/
abbrev Sections := List (String × List String)

/-- Python's `m[k]` lookup (as an `Option`). -/
def dictFind (m : Sections) (k : String) : Option (List String) :=
  (m.find? (fun p => p.1 = k)).map Prod.snd

/-- Python's `m[k] = v`: replace in place when the key exists, else append. -/
def dictSet (m : Sections) (k : String) (v : List String) : Sections :=
  if (m.find? (fun p => p.1 = k)).isSome then
    m.map (fun p => if p.1 = k then (k, v) else p)
  else m ++ [(k, v)]

/-- Lookup defaulting to the empty list (used for the continuation branch,
where the key is always present in the source). -/
def dictGetD (m : Sections) (k : String) : List String :=
  (dictFind m k).getD []

/-! ### The parser of `src/BookTrack.py` (`parse_gemini_analysis`, lines 140-176) -/

namespace BookTrack

/-- One iteration of the line loop of `BookTrack.py`'s `parse_gemini_analysis`.
The state is the `sections` dict together with `current_section`.  A blank
line is skipped; a colon-bearing line starts a new section (brackets stripped,
content split on commas, each piece stripped); any other line, when a current
section exists, has its comma-split stripped pieces appended to that
section's list. -/
def parseStep (st : Sections × Option String) (rawLine : String) :
    Sections × Option String :=
  let line := pyStrip rawLine
  if line = "" then st
  else if hasColon line then
    let pr := splitFirstColon line
    let sectionName := pyStrip pr.1
    let content := stripBrackets (pyStrip pr.2)
    (dictSet st.1 sectionName (parseItems content), some sectionName)
  else
    match st.2 with
    | some cur => (dictSet st.1 cur (dictGetD st.1 cur ++ parseItems line), some cur)
    | none => st

/-- `parse_gemini_analysis` of `BookTrack.py`: `None` for falsy input (the
empty string), otherwise the dict built by folding the line loop over
`analysis_text.split('\n')`.  The catch-all exception handler of the source
is unreachable for string input, so the embedding is total on the success
path. -/
def parse_gemini_analysis (analysis_text : String) : Option Sections :=
  if analysis_text = "" then none
  else some (((pySplit analysis_text '\n').foldl parseStep ([], none)).1)

end BookTrack

/-! ### The parser of `src/book_soundtrack.py` (`parse_gemini_analysis`, lines 143-166) -/

namespace BookSoundtrack

/-- One iteration of the line loop of `book_soundtrack.py`'s
`parse_gemini_analysis`: blank and colon-free lines are skipped, a
colon-bearing line stores its bracket-stripped, comma-split, stripped pieces
under the section name. -/
def parseStep (sections : Sections) (rawLine : String) : Sections :=
  let line := pyStrip rawLine
  if line = "" || !hasColon line then sections
  else
    let pr := splitFirstColon line
    let sectionName := pyStrip pr.1
    let content := stripBrackets (pyStrip pr.2)
    dictSet sections sectionName (parseItems content)

/-- `parse_gemini_analysis` of `book_soundtrack.py`. -/
def parse_gemini_analysis (analysis_text : String) : Option Sections :=
  if analysis_text = "" then none
  else some ((pySplit analysis_text '\n').foldl parseStep [])

end BookSoundtrack

/-! ### Search data model -/

/-- One weighted Spotify search query (`{'terms': ..., 'limit': ...}`). -/
structure SearchQuery where
  terms : String
  limit : Nat
deriving DecidableEq

/-- The album object of a raw search-response item: its name and the list of
image URLs (`item["album"]["images"]`, each image contributing its `"url"`). -/
structure RawAlbum where
  name : String
  images : List String
deriving DecidableEq

/-- A raw item of a search response (`results["tracks"]["items"]`).  The
artists list holds the artist names; `preview_url` is `none` when the service
omits the key (Python's `item.get("preview_url", "")` default case). -/
structure RawItem where
  id : String
  name : String
  artists : List String
  album : RawAlbum
  uri : String
  popularity : Nat
  preview_url : Option String
deriving DecidableEq

/-- The normalized book record built by `get_book_info` in both files. -/
structure BookInfo where
  title : String
  authors : List String
  summary : String
deriving DecidableEq

/-! ### Stable descending sort

Python's `tracks.sort(key=lambda x: x['popularity'], reverse=True)` is the
stable descending sort by popularity (equal keys keep their original
relative order).  It is embedded as a stable insertion sort; the sortedness,
permutation and filter-stability theorems proved below pin the function down
uniquely, so any stable descending sort (in particular CPython's) computes
the same list. -/

/-- Insert `a` in front of the first element whose key is not larger,
keeping the descending order and placing `a` before later equal keys. -/
def insertPopDesc {α : Type} (pop : α → Nat) (a : α) : List α → List α
  | [] => [a]
  | b :: l => if pop b ≤ pop a then a :: b :: l else b :: insertPopDesc pop a l

/-- Stable descending sort by the key `pop`. -/
def sortPopDesc {α : Type} (pop : α → Nat) : List α → List α
  | [] => []
  | a :: l => insertPopDesc pop a (sortPopDesc pop l)

/-! ### Track search of `src/BookTrack.py` (`search_spotify_tracks`, lines 194-278) -/

namespace BookTrack

/-- A normalized track of `BookTrack.py` (the dict literal at lines 257-266). -/
structure Track where
  id : String
  name : String
  artist : String
  album : String
  uri : String
  popularity : Nat
  preview_url : String
  album_image : String
deriving DecidableEq

/-- Normalization of one raw item into a `Track` (lines 252-266 of
`BookTrack.py`).  `none` models an uncaught `IndexError`: the source
evaluates `item["album"]["images"][1]["url"]` whenever the image list is
non-empty (so a one-element list fails), and `item["artists"][0]` whenever an
artist is read.  `item.get("preview_url", "")` turns a missing preview into
the empty string. -/
def normalizeItem (item : RawItem) : Option Track :=
  let albumImage? : Option String :=
    if item.album.images.isEmpty then some "" else item.album.images[1]?
  match item.artists.head?, albumImage? with
  | some artist, some img =>
      some { id := item.id, name := item.name, artist := artist,
             album := item.album.name, uri := item.uri,
             popularity := item.popularity,
             preview_url := item.preview_url.getD "",
             album_image := img }
  | _, _ => none

/-- The inner loop over one query's response items (lines 252-270): each item
is normalized and appended unless a track with the same id is already in the
list.  A normalization error aborts the rest of this response (the
surrounding `except` catches it), keeping the tracks appended so far. -/
def addItems (tracks : List Track) : List RawItem → List Track
  | [] => tracks
  | item :: rest =>
    match normalizeItem item with
    | none => tracks
    | some track =>
      if tracks.any (fun t => t.id = track.id) then addItems tracks rest
      else addItems (tracks ++ [track]) rest

/-- The query loop (lines 244-274): each query is sent to the oracle; a
failing query (`none`) is skipped with a warning and the loop continues. -/
def runQueries (oracle : SearchQuery → Option (List RawItem))
    (tracks : List Track) : List SearchQuery → List Track
  | [] => tracks
  | q :: qs =>
    match oracle q with
    | none => runQueries oracle tracks qs
    | some items => runQueries oracle (addItems tracks items) qs

/-- Genre queries (lines 211-216): one `genre:"<g>"` query per genre with
limit `int(max_tracks * 0.25)`. -/
def genreQueries (analysis : Sections) (max_tracks : Nat) : List SearchQuery :=
  match dictFind analysis "Genres" with
  | some genres =>
      genres.map (fun genre =>
        { terms := "genre:\"" ++ genre ++ "\"", limit := max_tracks * 25 / 100 })
  | none => []

/-- Emotion-genre combination queries (lines 219-225): the first two tones
by the first two genres, limit `int(max_tracks * 0.3)`. -/
def comboQueries (analysis : Sections) (max_tracks : Nat) : List SearchQuery :=
  match dictFind analysis "Emotional Tones", dictFind analysis "Genres" with
  | some tones, some genres =>
      (tones.take 2).flatMap (fun tone =>
        (genres.take 2).map (fun genre =>
          { terms := tone ++ " " ++ genre, limit := max_tracks * 30 / 100 }))
  | _, _ => []

/-- Mood queries (lines 228-233): the first three moods, limit
`int(max_tracks * 0.3)`. -/
def moodQueries (analysis : Sections) (max_tracks : Nat) : List SearchQuery :=
  match dictFind analysis "Moods" with
  | some moods =>
      (moods.take 3).map (fun mood => { terms := mood, limit := max_tracks * 30 / 100 })
  | none => []

/-- Keyword queries (lines 236-241): one query per keyword, limit
`int(max_tracks * 0.15)`. -/
def keywordQueries (analysis : Sections) (max_tracks : Nat) : List SearchQuery :=
  match dictFind analysis "Keywords" with
  | some kws =>
      kws.map (fun kw => { terms := kw, limit := max_tracks * 15 / 100 })
  | none => []

/-- The full query list, in the order the source appends them. -/
def build_search_queries (analysis : Sections) (max_tracks : Nat) : List SearchQuery :=
  genreQueries analysis max_tracks ++ comboQueries analysis max_tracks ++
    moodQueries analysis max_tracks ++ keywordQueries analysis max_tracks

/-- Line 277: `tracks.sort(key=lambda x: x['popularity'], reverse=True)`. -/
def rankTracks (tracks : List Track) : List Track :=
  sortPopDesc Track.popularity tracks

/-- `search_spotify_tracks` of `BookTrack.py`.  `spOk` models the truthiness
of the Spotify client argument; the oracle models `sp.search`.  A falsy
client or a falsy (empty) analysis returns the empty list at once (line
196-197); otherwise the built queries are executed, aggregated with
id-deduplication, sorted by popularity descending and truncated to
`max_tracks` (line 277-278). -/
def search_spotify_tracks (spOk : Bool) (analysis : Sections) (max_tracks : Nat)
    (oracle : SearchQuery → Option (List RawItem)) : List Track :=
  if !spOk || analysis.isEmpty then []
  else
    (rankTracks (runQueries oracle [] (build_search_queries analysis max_tracks))).take
      max_tracks

end BookTrack

/-! ### Track search of `src/book_soundtrack.py` (`search_spotify_tracks`, lines 195-271) -/

namespace BookSoundtrack

/-- A normalized track of `book_soundtrack.py` (the dict literal at lines
254-261): unlike `BookTrack.py` it has no preview URL and no album image. -/
structure Track where
  id : String
  name : String
  artist : String
  album : String
  uri : String
  popularity : Nat
deriving DecidableEq

/-- Normalization of one raw item (lines 254-261); `none` models the
`IndexError` of `item["artists"][0]` on an empty artist list. -/
def normalizeItem (item : RawItem) : Option Track :=
  match item.artists.head? with
  | some artist =>
      some { id := item.id, name := item.name, artist := artist,
             album := item.album.name, uri := item.uri,
             popularity := item.popularity }
  | none => none

/-- The inner loop over one query's response items (lines 253-263): the
track dict is appended unless an equal dict (`if track not in tracks`,
whole-value equality, not id equality) is already present. -/
def addItems (tracks : List Track) : List RawItem → List Track
  | [] => tracks
  | item :: rest =>
    match normalizeItem item with
    | none => tracks
    | some track =>
      if track ∈ tracks then addItems tracks rest
      else addItems (tracks ++ [track]) rest

/-- The query loop (lines 245-267): a failing query is skipped and the loop
continues. -/
def runQueries (oracle : SearchQuery → Option (List RawItem))
    (tracks : List Track) : List SearchQuery → List Track
  | [] => tracks
  | q :: qs =>
    match oracle q with
    | none => runQueries oracle tracks qs
    | some items => runQueries oracle (addItems tracks items) qs

/-- Genre queries (lines 212-217), identical to `BookTrack.py`. -/
def genreQueries (analysis : Sections) (max_tracks : Nat) : List SearchQuery :=
  match dictFind analysis "Genres" with
  | some genres =>
      genres.map (fun genre =>
        { terms := "genre:\"" ++ genre ++ "\"", limit := max_tracks * 25 / 100 })
  | none => []

/-- Emotion-genre combination queries (lines 220-226): unlike `BookTrack.py`
the tone loop runs over ALL entries of `analysis['Emotional Tones']` (no
`[:2]` slice); only the genre loop is restricted to the first two. -/
def comboQueries (analysis : Sections) (max_tracks : Nat) : List SearchQuery :=
  match dictFind analysis "Emotional Tones", dictFind analysis "Genres" with
  | some tones, some genres =>
      tones.flatMap (fun tone =>
        (genres.take 2).map (fun genre =>
          { terms := tone ++ " " ++ genre, limit := max_tracks * 30 / 100 }))
  | _, _ => []

/-- Mood queries (lines 229-234): over ALL moods (no `[:3]` slice here). -/
def moodQueries (analysis : Sections) (max_tracks : Nat) : List SearchQuery :=
  match dictFind analysis "Moods" with
  | some moods =>
      moods.map (fun mood => { terms := mood, limit := max_tracks * 30 / 100 })
  | none => []

/-- Keyword queries (lines 237-242), identical to `BookTrack.py`. -/
def keywordQueries (analysis : Sections) (max_tracks : Nat) : List SearchQuery :=
  match dictFind analysis "Keywords" with
  | some kws =>
      kws.map (fun kw => { terms := kw, limit := max_tracks * 15 / 100 })
  | none => []

/-- The full query list, in the order the source appends them. -/
def build_search_queries (analysis : Sections) (max_tracks : Nat) : List SearchQuery :=
  genreQueries analysis max_tracks ++ comboQueries analysis max_tracks ++
    moodQueries analysis max_tracks ++ keywordQueries analysis max_tracks

/-- Line 270: `tracks.sort(key=lambda x: x['popularity'], reverse=True)`. -/
def rankTracks (tracks : List Track) : List Track :=
  sortPopDesc Track.popularity tracks

/-- `search_spotify_tracks` of `book_soundtrack.py` (lines 195-271). -/
def search_spotify_tracks (spOk : Bool) (analysis : Sections) (max_tracks : Nat)
    (oracle : SearchQuery → Option (List RawItem)) : List Track :=
  if !spOk || analysis.isEmpty then []
  else
    (rankTracks (runQueries oracle [] (build_search_queries analysis max_tracks))).take
      max_tracks

/-- The playlist name built by `create_spotify_playlist` (line 282 of
`book_soundtrack.py`): `f"📚 {book_info['title']} - Literary Soundtrack"`. -/
def playlist_name (book_info : BookInfo) : String :=
  "📚 " ++ book_info.title ++ " - Literary Soundtrack"

end BookSoundtrack

/-! ### Claim-side (specification) definitions used for refinement claims -/

/-- The emotion-genre combination queries exactly as claim C4 words them:
tone over the FIRST TWO entries of "Emotional Tones", genre over the first
two entries of "Genres", terms `"<tone> <genre>"`, limit
`floor(max_tracks * 0.3)`. -/
def claimComboQueries (tones genres : List String) (max_tracks : Nat) :
    List SearchQuery :=
  (tones.take 2).flatMap (fun tone =>
    (genres.take 2).map (fun genre =>
      { terms := tone ++ " " ++ genre, limit := max_tracks * 30 / 100 }))

/-- The combination queries as `book_soundtrack.py` actually builds them:
tone over ALL entries of "Emotional Tones", genre over the first two genres. -/
def allTonesComboQueries (tones genres : List String) (max_tracks : Nat) :
    List SearchQuery :=
  tones.flatMap (fun tone =>
    (genres.take 2).map (fun genre =>
      { terms := tone ++ " " ++ genre, limit := max_tracks * 30 / 100 }))

/-- Invariant claimed by C2 (amended): every stored term is a fixed point of
stripping, i.e. carries no leading or trailing whitespace. -/
def sectionsTrimmed (m : Sections) : Prop :=
  ∀ p ∈ m, ∀ v ∈ p.2, pyStrip v = v

/-- Falsiness of a parse result as the callers test it (`if not analysis`):
the parser returned `None`, or it returned a mapping with zero categories. -/
def parseFailed (r : Option Sections) : Prop :=
  r = none ∨ r = some []

/-! ## Helper lemmas -/

/-! ### Stripping -/

theorem dropWhile_head?_false {α : Type} (p : α → Bool) (l : List α) (c : α)
    (h : (l.dropWhile p).head? = some c) : p c = false := by
  induction l with
  | nil => simp [List.dropWhile] at h
  | cons a t ih =>
    rw [List.dropWhile_cons] at h
    by_cases hpa : p a = true
    · rw [if_pos hpa] at h
      exact ih h
    · rw [if_neg hpa] at h
      simp only [List.head?_cons, Option.some.injEq] at h
      subst h
      exact Bool.eq_false_iff.mpr hpa

theorem dropWhile_dropWhile {α : Type} (p : α → Bool) (l : List α) :
    (l.dropWhile p).dropWhile p = l.dropWhile p := by
  cases h : l.dropWhile p with
  | nil => rfl
  | cons c cs =>
    have hpc : p c = false := dropWhile_head?_false p l c (by rw [h]; rfl)
    rw [List.dropWhile_cons]
    simp [hpc]

theorem stripList_dropWhile (l : List Char) :
    (stripList l).dropWhile pyIsSpace = stripList l := by
  unfold stripList
  cases hz : ((l.dropWhile pyIsSpace).reverse.dropWhile pyIsSpace).reverse with
  | nil => rfl
  | cons c cs =>
    have hznil : (l.dropWhile pyIsSpace).reverse.dropWhile pyIsSpace ≠ [] := by
      intro h
      rw [h] at hz
      exact List.cons_ne_nil c cs hz.symm
    obtain ⟨t, ht⟩ := List.dropWhile_suffix
      (l := (l.dropWhile pyIsSpace).reverse) pyIsSpace
    have hlast : ((l.dropWhile pyIsSpace).reverse.dropWhile pyIsSpace).getLast? =
        (l.dropWhile pyIsSpace).head? := by
      rw [← List.getLast?_reverse]
      conv_rhs => rw [← ht]
      rw [List.getLast?_append_of_ne_nil _ hznil]
    have hhead : ((l.dropWhile pyIsSpace).reverse.dropWhile pyIsSpace).reverse.head? =
        some c := by rw [hz]; rfl
    rw [List.head?_reverse, hlast] at hhead
    have hpc : pyIsSpace c = false := dropWhile_head?_false pyIsSpace l c hhead
    rw [List.dropWhile_cons]
    simp [hpc]

theorem stripList_idem (l : List Char) : stripList (stripList l) = stripList l :=
  calc stripList (stripList l)
      = (((stripList l).dropWhile pyIsSpace).reverse.dropWhile pyIsSpace).reverse := rfl
    _ = ((stripList l).reverse.dropWhile pyIsSpace).reverse := by
        rw [stripList_dropWhile]
    _ = ((((l.dropWhile pyIsSpace).reverse.dropWhile pyIsSpace).reverse.reverse).dropWhile
          pyIsSpace).reverse := rfl
    _ = (((l.dropWhile pyIsSpace).reverse.dropWhile pyIsSpace).dropWhile pyIsSpace).reverse := by
        rw [List.reverse_reverse]
    _ = ((l.dropWhile pyIsSpace).reverse.dropWhile pyIsSpace).reverse := by
        rw [dropWhile_dropWhile]
    _ = stripList l := rfl

theorem pyStrip_idem (s : String) : pyStrip (pyStrip s) = pyStrip s := by
  show String.mk (stripList (stripList s.data)) = String.mk (stripList s.data)
  rw [stripList_idem]

theorem mem_dropWhile_of_mem {α : Type} {p : α → Bool} {a : α} {l : List α}
    (hm : a ∈ l) (hp : p a = false) : a ∈ l.dropWhile p := by
  induction l with
  | nil => exact absurd hm (List.not_mem_nil a)
  | cons b t ih =>
    rw [List.dropWhile_cons]
    by_cases hpb : p b = true
    · rw [if_pos hpb]
      rcases List.mem_cons.mp hm with h | h
      · subst h
        rw [hp] at hpb
        exact absurd hpb (by simp)
      · exact ih h
    · rw [if_neg hpb]
      exact hm

theorem mem_of_mem_dropWhile {α : Type} {p : α → Bool} {a : α} {l : List α}
    (h : a ∈ l.dropWhile p) : a ∈ l :=
  (List.dropWhile_suffix p).sublist.subset h

theorem mem_stripList {c : Char} (l : List Char) (hc : pyIsSpace c = false) :
    c ∈ stripList l ↔ c ∈ l := by
  unfold stripList
  constructor
  · intro h
    rw [List.mem_reverse] at h
    have h2 : c ∈ (l.dropWhile pyIsSpace).reverse := mem_of_mem_dropWhile h
    rw [List.mem_reverse] at h2
    exact mem_of_mem_dropWhile h2
  · intro h
    rw [List.mem_reverse]
    apply mem_dropWhile_of_mem _ hc
    rw [List.mem_reverse]
    exact mem_dropWhile_of_mem h hc

theorem hasColon_pyStrip (s : String) : hasColon (pyStrip s) = hasColon s := by
  simp only [hasColon, pyStrip]
  exact decide_eq_decide.mpr (mem_stripList s.data (by decide))

/-! ### Dictionary operations -/

theorem dictSet_ne_nil (m : Sections) (k : String) (v : List String) :
    dictSet m k v ≠ [] := by
  unfold dictSet
  split
  · rename_i hfind
    intro h
    rw [List.map_eq_nil_iff] at h
    subst h
    simp [List.find?] at hfind
  · simp

theorem sectionsTrimmed_dictSet {m : Sections} {vs : List String} (k : String)
    (hm : sectionsTrimmed m) (hv : ∀ v ∈ vs, pyStrip v = v) :
    sectionsTrimmed (dictSet m k vs) := by
  unfold dictSet
  split
  · intro p hp v hvp
    rw [List.mem_map] at hp
    obtain ⟨q, hq, hpq⟩ := hp
    by_cases h : q.1 = k
    · rw [if_pos h] at hpq
      subst hpq
      exact hv v hvp
    · rw [if_neg h] at hpq
      subst hpq
      exact hm q hq v hvp
  · intro p hp v hvp
    rcases List.mem_append.mp hp with h | h
    · exact hm p h v hvp
    · rw [List.mem_singleton] at h
      subst h
      exact hv v hvp

theorem sectionsTrimmed_getD {m : Sections} (k : String)
    (hm : sectionsTrimmed m) : ∀ v ∈ dictGetD m k, pyStrip v = v := by
  unfold dictGetD dictFind
  cases h : m.find? (fun p => p.1 = k) with
  | none =>
    intro v hv
    simp at hv
  | some q =>
    exact fun v hv => hm q (List.mem_of_find?_eq_some h) v hv

theorem parseItems_trimmed (content : String) :
    ∀ v ∈ parseItems content, pyStrip v = v := by
  intro v hv
  unfold parseItems at hv
  rw [List.mem_map] at hv
  obtain ⟨x, _, rfl⟩ := hv
  exact pyStrip_idem x

/-! ### Parser invariants: `BookTrack.py` -/

theorem bt_parseStep_ne_nil (st : Sections × Option String) (l : String)
    (h : st.1 ≠ []) : (BookTrack.parseStep st l).1 ≠ [] := by
  unfold BookTrack.parseStep
  by_cases hb : pyStrip l = ""
  · simpa [hb] using h
  · by_cases hc : hasColon (pyStrip l) = true
    · simp only [hb, hc, if_false, if_true, reduceIte]
      exact dictSet_ne_nil _ _ _
    · cases hst : st.2 with
      | some cur => simp [hb, hc, hst]; exact dictSet_ne_nil _ _ _
      | none => simpa [hb, hc, hst] using h

theorem bt_foldl_ne_nil (lines : List String) (st : Sections × Option String)
    (h : st.1 ≠ []) : ((lines.foldl BookTrack.parseStep st).1 ≠ []) := by
  induction lines generalizing st with
  | nil => exact h
  | cons l ls ih => exact ih _ (bt_parseStep_ne_nil st l h)

theorem bt_foldl_nil_iff (lines : List String) :
    ((lines.foldl BookTrack.parseStep ([], none)).1 = []) ↔
      (∀ l ∈ lines, hasColon l = false) := by
  induction lines with
  | nil => simp
  | cons l ls ih =>
    rw [List.foldl_cons]
    by_cases hb : pyStrip l = ""
    · have hstep : BookTrack.parseStep ([], none) l = ([], none) := by
        unfold BookTrack.parseStep
        simp [hb]
      have hcl : hasColon l = false := by
        rw [← hasColon_pyStrip, hb]
        rfl
      rw [hstep]
      constructor
      · intro hfold x hx
        rcases List.mem_cons.mp hx with hxl | hxs
        · rw [hxl]; exact hcl
        · exact ih.mp hfold x hxs
      · intro hall
        exact ih.mpr (fun x hx => hall x (List.mem_cons_of_mem _ hx))
    · by_cases hc : hasColon (pyStrip l) = true
      · have h1 : (BookTrack.parseStep ([], none) l).1 ≠ [] := by
          unfold BookTrack.parseStep
          simp only [hb, hc, if_false, if_true, reduceIte]
          exact dictSet_ne_nil _ _ _
        have h2 : ((ls.foldl BookTrack.parseStep (BookTrack.parseStep ([], none) l)).1 ≠ []) :=
          bt_foldl_ne_nil ls _ h1
        have hcl : hasColon l = true := by rw [← hasColon_pyStrip]; exact hc
        constructor
        · intro hfold
          exact absurd hfold h2
        · intro hall
          have := hall l (List.mem_cons_self l ls)
          rw [hcl] at this
          exact absurd this (by simp)
      · have hstep : BookTrack.parseStep ([], none) l = ([], none) := by
          unfold BookTrack.parseStep
          simp [hb, hc]
        have hcl : hasColon l = false := by
          rw [← hasColon_pyStrip]
          exact Bool.eq_false_iff.mpr hc
        rw [hstep]
        constructor
        · intro hfold x hx
          rcases List.mem_cons.mp hx with hxl | hxs
          · rw [hxl]; exact hcl
          · exact ih.mp hfold x hxs
        · intro hall
          exact ih.mpr (fun x hx => hall x (List.mem_cons_of_mem _ hx))

theorem bt_parseStep_trimmed (st : Sections × Option String) (l : String)
    (h : sectionsTrimmed st.1) : sectionsTrimmed (BookTrack.parseStep st l).1 := by
  unfold BookTrack.parseStep
  by_cases hb : pyStrip l = ""
  · simpa [hb] using h
  · by_cases hc : hasColon (pyStrip l) = true
    · simp only [hb, hc, if_false, if_true, reduceIte]
      exact sectionsTrimmed_dictSet _ h (parseItems_trimmed _)
    · cases hst : st.2 with
      | some cur =>
        simp only [hb, hc, hst, if_false, reduceIte]
        apply sectionsTrimmed_dictSet _ h
        intro v hv
        rcases List.mem_append.mp hv with hv | hv
        · exact sectionsTrimmed_getD cur h v hv
        · exact parseItems_trimmed _ v hv
      | none => simpa [hb, hc, hst] using h

theorem bt_foldl_trimmed (lines : List String) (st : Sections × Option String)
    (h : sectionsTrimmed st.1) :
    sectionsTrimmed ((lines.foldl BookTrack.parseStep st).1) := by
  induction lines generalizing st with
  | nil => exact h
  | cons l ls ih => exact ih _ (bt_parseStep_trimmed st l h)

/-! ### Parser invariants: `book_soundtrack.py` -/

theorem bs_parseStep_ne_nil (m : Sections) (l : String) (h : m ≠ []) :
    BookSoundtrack.parseStep m l ≠ [] := by
  unfold BookSoundtrack.parseStep
  by_cases hb : (pyStrip l = "" || !hasColon (pyStrip l)) = true
  · simpa [hb] using h
  · simp only [hb, reduceIte]
    exact dictSet_ne_nil _ _ _

theorem bs_foldl_ne_nil (lines : List String) (m : Sections) (h : m ≠ []) :
    lines.foldl BookSoundtrack.parseStep m ≠ [] := by
  induction lines generalizing m with
  | nil => exact h
  | cons l ls ih => exact ih _ (bs_parseStep_ne_nil m l h)

theorem bs_foldl_nil_iff (lines : List String) :
    (lines.foldl BookSoundtrack.parseStep [] = []) ↔
      (∀ l ∈ lines, hasColon l = false) := by
  induction lines with
  | nil => simp
  | cons l ls ih =>
    rw [List.foldl_cons]
    by_cases hcol : hasColon (pyStrip l) = true
    · have h1 : BookSoundtrack.parseStep [] l ≠ [] := by
        unfold BookSoundtrack.parseStep
        have hb : ¬(pyStrip l = "") := by
          intro h0
          rw [h0] at hcol
          exact absurd hcol (by decide)
        simp only [hb, hcol, Bool.not_true, Bool.or_false, decide_eq_true_eq, if_false,
          reduceIte]
        exact dictSet_ne_nil _ _ _
      have h2 : ls.foldl BookSoundtrack.parseStep (BookSoundtrack.parseStep [] l) ≠ [] :=
        bs_foldl_ne_nil ls _ h1
      have hcl : hasColon l = true := by rw [← hasColon_pyStrip]; exact hcol
      constructor
      · intro hfold
        exact absurd hfold h2
      · intro hall
        have := hall l (List.mem_cons_self l ls)
        rw [hcl] at this
        exact absurd this (by simp)
    · have hstep : BookSoundtrack.parseStep [] l = [] := by
        unfold BookSoundtrack.parseStep
        simp [Bool.eq_false_iff.mpr hcol]
      have hcl : hasColon l = false := by
        rw [← hasColon_pyStrip]
        exact Bool.eq_false_iff.mpr hcol
      rw [hstep]
      constructor
      · intro hfold x hx
        rcases List.mem_cons.mp hx with hxl | hxs
        · rw [hxl]; exact hcl
        · exact ih.mp hfold x hxs
      · intro hall
        exact ih.mpr (fun x hx => hall x (List.mem_cons_of_mem _ hx))

theorem bs_parseStep_trimmed (m : Sections) (l : String) (h : sectionsTrimmed m) :
    sectionsTrimmed (BookSoundtrack.parseStep m l) := by
  unfold BookSoundtrack.parseStep
  by_cases hb : (pyStrip l = "" || !hasColon (pyStrip l)) = true
  · simpa [hb] using h
  · simp only [hb, reduceIte]
    exact sectionsTrimmed_dictSet _ h (parseItems_trimmed _)

theorem bs_foldl_trimmed (lines : List String) (m : Sections)
    (h : sectionsTrimmed m) :
    sectionsTrimmed (lines.foldl BookSoundtrack.parseStep m) := by
  induction lines generalizing m with
  | nil => exact h
  | cons l ls ih => exact ih _ (bs_parseStep_trimmed m l h)

/-! ### The stable descending sort -/

theorem insertPopDesc_perm {α : Type} (pop : α → Nat) (a : α) (l : List α) :
    (insertPopDesc pop a l).Perm (a :: l) := by
  induction l with
  | nil => exact List.Perm.refl _
  | cons b t ih =>
    unfold insertPopDesc
    by_cases h : pop b ≤ pop a
    · rw [if_pos h]
    · rw [if_neg h]
      exact (ih.cons b).trans (List.Perm.swap a b t)

theorem sortPopDesc_perm {α : Type} (pop : α → Nat) (l : List α) :
    (sortPopDesc pop l).Perm l := by
  induction l with
  | nil => exact List.Perm.refl _
  | cons a t ih =>
    exact (insertPopDesc_perm pop a (sortPopDesc pop t)).trans (ih.cons a)

theorem insertPopDesc_sorted {α : Type} (pop : α → Nat) (a : α) {l : List α}
    (h : l.Pairwise (fun x y => pop y ≤ pop x)) :
    (insertPopDesc pop a l).Pairwise (fun x y => pop y ≤ pop x) := by
  induction l with
  | nil => simp [insertPopDesc]
  | cons b t ih =>
    unfold insertPopDesc
    rcases List.pairwise_cons.mp h with ⟨hb, ht⟩
    by_cases hc : pop b ≤ pop a
    · rw [if_pos hc]
      refine List.pairwise_cons.mpr ⟨?_, h⟩
      intro y hy
      rcases List.mem_cons.mp hy with rfl | hyt
      · exact hc
      · exact le_trans (hb y hyt) hc
    · rw [if_neg hc]
      refine List.pairwise_cons.mpr ⟨?_, ih ht⟩
      intro y hy
      have hy' := (insertPopDesc_perm pop a t).mem_iff.mp hy
      rcases List.mem_cons.mp hy' with rfl | hyt
      · exact Nat.le_of_lt (Nat.lt_of_not_le hc)
      · exact hb y hyt

theorem sortPopDesc_sorted {α : Type} (pop : α → Nat) (l : List α) :
    (sortPopDesc pop l).Pairwise (fun x y => pop y ≤ pop x) := by
  induction l with
  | nil => simp [sortPopDesc]
  | cons a t ih => exact insertPopDesc_sorted pop a ih

theorem insertPopDesc_filter {α : Type} (pop : α → Nat) (a : α) (l : List α) (n : Nat) :
    (insertPopDesc pop a l).filter (fun x => pop x = n) =
      if pop a = n then a :: l.filter (fun x => pop x = n)
      else l.filter (fun x => pop x = n) := by
  induction l with
  | nil =>
    by_cases ha : pop a = n <;> simp [insertPopDesc, List.filter_cons, ha]
  | cons b t ih =>
    unfold insertPopDesc
    by_cases hc : pop b ≤ pop a
    · rw [if_pos hc]
      by_cases ha : pop a = n <;> simp [List.filter_cons, ha]
    · rw [if_neg hc]
      rw [List.filter_cons, List.filter_cons, ih]
      by_cases hbn : pop b = n
      · have han : ¬(pop a = n) := by
          intro h0
          exact hc (by rw [h0, hbn])
        simp [hbn, han]
      · by_cases ha : pop a = n <;> simp [hbn, ha]

theorem sortPopDesc_filter {α : Type} (pop : α → Nat) (l : List α) (n : Nat) :
    (sortPopDesc pop l).filter (fun x => pop x = n) =
      l.filter (fun x => pop x = n) := by
  induction l with
  | nil => rfl
  | cons a t ih =>
    show (insertPopDesc pop a (sortPopDesc pop t)).filter (fun x => pop x = n) = _
    rw [insertPopDesc_filter, List.filter_cons, ih]
    by_cases ha : pop a = n <;> simp [ha]

/-! ### Aggregation: `BookTrack.py` -/

theorem bt_addItems_append (items : List RawItem) (tracks : List BookTrack.Track) :
    ∃ s, BookTrack.addItems tracks items = tracks ++ s := by
  induction items generalizing tracks with
  | nil => exact ⟨[], by simp [BookTrack.addItems]⟩
  | cons item rest ih =>
    unfold BookTrack.addItems
    cases hn : BookTrack.normalizeItem item with
    | none => exact ⟨[], by simp⟩
    | some track =>
      dsimp only
      by_cases hd : tracks.any (fun t => t.id = track.id) = true
      · rw [if_pos hd]
        exact ih tracks
      · rw [if_neg hd]
        obtain ⟨s, hs⟩ := ih (tracks ++ [track])
        exact ⟨track :: s, by rw [hs, List.append_assoc]; rfl⟩

theorem bt_runQueries_append (oracle : SearchQuery → Option (List RawItem))
    (qs : List SearchQuery) (tracks : List BookTrack.Track) :
    ∃ s, BookTrack.runQueries oracle tracks qs = tracks ++ s := by
  induction qs generalizing tracks with
  | nil => exact ⟨[], by simp [BookTrack.runQueries]⟩
  | cons q qs ih =>
    unfold BookTrack.runQueries
    cases hq : oracle q with
    | none => exact ih tracks
    | some items =>
      obtain ⟨s1, h1⟩ := bt_addItems_append items tracks
      obtain ⟨s2, h2⟩ := ih (BookTrack.addItems tracks items)
      exact ⟨s1 ++ s2, by dsimp only; rw [h2, h1, List.append_assoc]⟩

theorem bt_addItems_pairwise (items : List RawItem) (tracks : List BookTrack.Track)
    (h : tracks.Pairwise (fun a b => a.id ≠ b.id)) :
    (BookTrack.addItems tracks items).Pairwise (fun a b => a.id ≠ b.id) := by
  induction items generalizing tracks with
  | nil => exact h
  | cons item rest ih =>
    unfold BookTrack.addItems
    cases hn : BookTrack.normalizeItem item with
    | none => exact h
    | some track =>
      dsimp only
      by_cases hd : tracks.any (fun t => t.id = track.id) = true
      · rw [if_pos hd]
        exact ih tracks h
      · rw [if_neg hd]
        apply ih
        rw [List.pairwise_append]
        refine ⟨h, List.pairwise_singleton _ _, ?_⟩
        intro a ha b hb
        rw [List.mem_singleton] at hb
        subst hb
        have := List.any_eq_false.mp (Bool.eq_false_iff.mpr hd) a ha
        simpa using this

theorem bt_runQueries_pairwise (oracle : SearchQuery → Option (List RawItem))
    (qs : List SearchQuery) (tracks : List BookTrack.Track)
    (h : tracks.Pairwise (fun a b => a.id ≠ b.id)) :
    (BookTrack.runQueries oracle tracks qs).Pairwise (fun a b => a.id ≠ b.id) := by
  induction qs generalizing tracks with
  | nil => exact h
  | cons q qs ih =>
    unfold BookTrack.runQueries
    cases hq : oracle q with
    | none => exact ih tracks h
    | some items => exact ih _ (bt_addItems_pairwise items tracks h)

theorem bt_runQueries_skip (oracle : SearchQuery → Option (List RawItem))
    (tracks : List BookTrack.Track) (qs1 : List SearchQuery) (q : SearchQuery)
    (qs2 : List SearchQuery) (h : oracle q = none) :
    BookTrack.runQueries oracle tracks (qs1 ++ q :: qs2) =
      BookTrack.runQueries oracle tracks (qs1 ++ qs2) := by
  induction qs1 generalizing tracks with
  | nil => simp [BookTrack.runQueries, h]
  | cons q' qs1 ih =>
    simp only [List.cons_append]
    unfold BookTrack.runQueries
    cases hq : oracle q' with
    | none => exact ih tracks
    | some items => exact ih _

/-! ### Aggregation: `book_soundtrack.py` -/

theorem bs_addItems_nodup (items : List RawItem) (tracks : List BookSoundtrack.Track)
    (h : tracks.Pairwise (fun a b => a ≠ b)) :
    (BookSoundtrack.addItems tracks items).Pairwise (fun a b => a ≠ b) := by
  induction items generalizing tracks with
  | nil => exact h
  | cons item rest ih =>
    unfold BookSoundtrack.addItems
    cases hn : BookSoundtrack.normalizeItem item with
    | none => exact h
    | some track =>
      dsimp only
      by_cases hd : track ∈ tracks
      · rw [if_pos hd]
        exact ih tracks h
      · rw [if_neg hd]
        apply ih
        rw [List.pairwise_append]
        refine ⟨h, List.pairwise_singleton _ _, ?_⟩
        intro a ha b hb
        rw [List.mem_singleton] at hb
        subst hb
        intro hab
        subst hab
        exact hd ha

theorem bs_runQueries_nodup (oracle : SearchQuery → Option (List RawItem))
    (qs : List SearchQuery) (tracks : List BookSoundtrack.Track)
    (h : tracks.Pairwise (fun a b => a ≠ b)) :
    (BookSoundtrack.runQueries oracle tracks qs).Pairwise (fun a b => a ≠ b) := by
  induction qs generalizing tracks with
  | nil => exact h
  | cons q qs ih =>
    unfold BookSoundtrack.runQueries
    cases hq : oracle q with
    | none => exact ih tracks h
    | some items => exact ih _ (bs_addItems_nodup items tracks h)

theorem bs_runQueries_skip (oracle : SearchQuery → Option (List RawItem))
    (tracks : List BookSoundtrack.Track) (qs1 : List SearchQuery) (q : SearchQuery)
    (qs2 : List SearchQuery) (h : oracle q = none) :
    BookSoundtrack.runQueries oracle tracks (qs1 ++ q :: qs2) =
      BookSoundtrack.runQueries oracle tracks (qs1 ++ qs2) := by
  induction qs1 generalizing tracks with
  | nil => simp [BookSoundtrack.runQueries, h]
  | cons q' qs1 ih =>
    simp only [List.cons_append]
    unfold BookSoundtrack.runQueries
    cases hq : oracle q' with
    | none => exact ih tracks
    | some items => exact ih _

/-! ## Claim theorems -/

/-- C1, counterexample: in `book_soundtrack.py` the aggregation keeps two
tracks with the same id when any other field differs.  A single keyword
query whose response holds two items with id "T1" and popularities 90 and 10
produces a final list whose id sequence is ["T1", "T1"], so the claim that
every later item with an already-seen id is discarded is false for this
file. -/
theorem C1_counterexample :
    (BookSoundtrack.search_spotify_tracks true [("Keywords", ["k"])] 15
      (fun _ => some
        [{ id := "T1", name := "n1", artists := ["a1"],
           album := { name := "al", images := [] },
           uri := "u1", popularity := 90, preview_url := none },
         { id := "T1", name := "n1", artists := ["a1"],
           album := { name := "al", images := [] },
           uri := "u1", popularity := 10, preview_url := none }])).map
        (fun t => t.id)
    = ["T1", "T1"] := by decide

/-- C1, amended: `BookTrack.py` does deduplicate by id (the final list is
pairwise id-distinct and already-stored tracks are never replaced, so the
first occurrence wins), while `book_soundtrack.py` deduplicates by full
structural equality of the normalized track, so its final list is free of
duplicate values but may repeat an id. -/
theorem C1_dedup_amended :
    (∀ (spOk : Bool) (analysis : Sections) (mt : Nat)
        (oracle : SearchQuery → Option (List RawItem)),
      (BookTrack.search_spotify_tracks spOk analysis mt oracle).Pairwise
        (fun a b => a.id ≠ b.id))
  ∧ (∀ (oracle : SearchQuery → Option (List RawItem))
        (tracks : List BookTrack.Track) (qs : List SearchQuery),
      ∃ s, BookTrack.runQueries oracle tracks qs = tracks ++ s)
  ∧ (∀ (spOk : Bool) (analysis : Sections) (mt : Nat)
        (oracle : SearchQuery → Option (List RawItem)),
      (BookSoundtrack.search_spotify_tracks spOk analysis mt oracle).Pairwise
        (fun a b => a ≠ b)) := by
  refine ⟨?_, ?_, ?_⟩
  · intro spOk analysis mt oracle
    unfold BookTrack.search_spotify_tracks
    by_cases hc : (!spOk || analysis.isEmpty) = true
    · rw [if_pos hc]
      exact List.Pairwise.nil
    · rw [if_neg hc]
      apply List.Pairwise.sublist (List.take_sublist _ _)
      have hrun := bt_runQueries_pairwise oracle
        (BookTrack.build_search_queries analysis mt) [] List.Pairwise.nil
      have hperm := sortPopDesc_perm BookTrack.Track.popularity
        (BookTrack.runQueries oracle [] (BookTrack.build_search_queries analysis mt))
      exact (hperm.pairwise_iff (fun h he => h he.symm)).mpr hrun
  · intro oracle tracks qs
    exact bt_runQueries_append oracle qs tracks
  · intro spOk analysis mt oracle
    unfold BookSoundtrack.search_spotify_tracks
    by_cases hc : (!spOk || analysis.isEmpty) = true
    · rw [if_pos hc]
      exact List.Pairwise.nil
    · rw [if_neg hc]
      apply List.Pairwise.sublist (List.take_sublist _ _)
      have hrun := bs_runQueries_nodup oracle
        (BookSoundtrack.build_search_queries analysis mt) [] List.Pairwise.nil
      have hperm := sortPopDesc_perm BookSoundtrack.Track.popularity
        (BookSoundtrack.runQueries oracle []
          (BookSoundtrack.build_search_queries analysis mt))
      exact (hperm.pairwise_iff (fun h he => h he.symm)).mpr hrun

/-- C2, counterexample: neither parser drops pieces that are empty after
trimming — `"Genres: a,,b"` stores the empty string between the two commas,
so the claim that every stored element is non-empty is false. -/
theorem C2_counterexample :
    BookTrack.parse_gemini_analysis "Genres: a,,b" = some [("Genres", ["a", "", "b"])]
  ∧ BookSoundtrack.parse_gemini_analysis "Genres: a,,b" = some [("Genres", ["a", "", "b"])]
  ∧ "" ∈ ["a", "", "b"] := by
  refine ⟨by decide, by decide, by decide⟩

/-- C2, amended: every element of every category list of a returned profile
is a trimmed string (a fixed point of stripping); empty pieces, however, are
kept as empty strings rather than dropped. -/
theorem C2_trimmed_amended (text : String) (m : Sections) :
    (BookTrack.parse_gemini_analysis text = some m → sectionsTrimmed m)
  ∧ (BookSoundtrack.parse_gemini_analysis text = some m → sectionsTrimmed m) := by
  have hbase : sectionsTrimmed [] := fun p hp => absurd hp (List.not_mem_nil p)
  constructor
  · intro h
    unfold BookTrack.parse_gemini_analysis at h
    by_cases ht : text = ""
    · rw [if_pos ht] at h
      exact absurd h (by simp)
    · rw [if_neg ht] at h
      rw [Option.some.injEq] at h
      subst h
      exact bt_foldl_trimmed _ _ hbase
  · intro h
    unfold BookSoundtrack.parse_gemini_analysis at h
    by_cases ht : text = ""
    · rw [if_pos ht] at h
      exact absurd h (by simp)
    · rw [if_neg ht] at h
      rw [Option.some.injEq] at h
      subst h
      exact bs_foldl_trimmed _ _ hbase

/-- C2, witness: the amended theorem applied to the concrete response
`"Genres:  a , b "`. -/
theorem C2_trimmed_witness :
    BookTrack.parse_gemini_analysis "Genres:  a , b " = some [("Genres", ["a", "b"])]
  ∧ sectionsTrimmed [("Genres", ["a", "b"])] :=
  ⟨by decide, (C2_trimmed_amended "Genres:  a , b " [("Genres", ["a", "b"])]).1 (by decide)⟩

/-- C3: both parsers fail (return a falsy result: `None` or a mapping with
zero categories) exactly when the input text is empty or no line of it
contains a colon; a zero-category mapping is never reported as a valid
profile, since the callers' falsiness test classifies it as a parse
failure. -/
theorem C3_parse_failure_iff (text : String) :
    (parseFailed (BookTrack.parse_gemini_analysis text) ↔
      (text = "" ∨ ∀ l ∈ pySplit text '\n', hasColon l = false))
  ∧ (parseFailed (BookSoundtrack.parse_gemini_analysis text) ↔
      (text = "" ∨ ∀ l ∈ pySplit text '\n', hasColon l = false)) := by
  by_cases ht : text = ""
  · constructor
    · constructor
      · intro _
        exact Or.inl ht
      · intro _
        unfold BookTrack.parse_gemini_analysis
        rw [if_pos ht]
        exact Or.inl rfl
    · constructor
      · intro _
        exact Or.inl ht
      · intro _
        unfold BookSoundtrack.parse_gemini_analysis
        rw [if_pos ht]
        exact Or.inl rfl
  · constructor
    · unfold BookTrack.parse_gemini_analysis parseFailed
      rw [if_neg ht]
      simp only [Option.some.injEq, reduceCtorEq, false_or]
      rw [bt_foldl_nil_iff]
      exact (or_iff_right ht).symm
    · unfold BookSoundtrack.parse_gemini_analysis parseFailed
      rw [if_neg ht]
      simp only [Option.some.injEq, reduceCtorEq, false_or]
      rw [bs_foldl_nil_iff]
      exact (or_iff_right ht).symm

/-- C4, counterexample: with three emotional tones, `book_soundtrack.py`
generates a combined query for the third tone as well ("t3 g1" with limit
`int(15 * 0.3) = 4`), so the claim that the tone ranges over exactly the
first two entries is false for this file. -/
theorem C4_counterexample :
    SearchQuery.mk "t3 g1" 4 ∈
      BookSoundtrack.build_search_queries
        [("Emotional Tones", ["t1", "t2", "t3"]), ("Genres", ["g1", "g2"])] 15 := by
  decide

/-- C4, amended: when both categories are present, `BookTrack.py` generates
exactly the claim's combination queries (first two tones by first two
genres, terms `"<tone> <genre>"`, limit `floor(max_tracks * 0.3)`), while
`book_soundtrack.py` ranges the tone over ALL entries of "Emotional Tones"
(the genre still over the first two); if either category is absent neither
file generates any combination query. -/
theorem C4_combo_amended (analysis : Sections) (mt : Nat) :
    (∀ tones genres,
      dictFind analysis "Emotional Tones" = some tones →
      dictFind analysis "Genres" = some genres →
        BookTrack.comboQueries analysis mt = claimComboQueries tones genres mt
      ∧ BookSoundtrack.comboQueries analysis mt = allTonesComboQueries tones genres mt)
  ∧ ((dictFind analysis "Emotional Tones" = none ∨ dictFind analysis "Genres" = none) →
      BookTrack.comboQueries analysis mt = []
    ∧ BookSoundtrack.comboQueries analysis mt = []) := by
  constructor
  · intro tones genres h1 h2
    constructor
    · unfold BookTrack.comboQueries
      rw [h1, h2]
      rfl
    · unfold BookSoundtrack.comboQueries
      rw [h1, h2]
      rfl
  · intro h
    rcases h with h | h
    · constructor
      · unfold BookTrack.comboQueries
        rw [h]
      · unfold BookSoundtrack.comboQueries
        rw [h]
    · constructor
      · unfold BookTrack.comboQueries
        rw [h]
        cases dictFind analysis "Emotional Tones" <;> rfl
      · unfold BookSoundtrack.comboQueries
        rw [h]
        cases dictFind analysis "Emotional Tones" <;> rfl

/-- C4, witness: the amended theorem applied to a concrete profile with
three emotional tones and two genres. -/
theorem C4_combo_witness :
    dictFind [("Emotional Tones", ["t1", "t2", "t3"]), ("Genres", ["g1", "g2"])]
      "Emotional Tones" = some ["t1", "t2", "t3"]
  ∧ dictFind [("Emotional Tones", ["t1", "t2", "t3"]), ("Genres", ["g1", "g2"])]
      "Genres" = some ["g1", "g2"]
  ∧ BookTrack.comboQueries
      [("Emotional Tones", ["t1", "t2", "t3"]), ("Genres", ["g1", "g2"])] 15 =
      claimComboQueries ["t1", "t2", "t3"] ["g1", "g2"] 15
  ∧ BookSoundtrack.comboQueries
      [("Emotional Tones", ["t1", "t2", "t3"]), ("Genres", ["g1", "g2"])] 15 =
      allTonesComboQueries ["t1", "t2", "t3"] ["g1", "g2"] 15 :=
  ⟨by decide, by decide,
    ((C4_combo_amended
      [("Emotional Tones", ["t1", "t2", "t3"]), ("Genres", ["g1", "g2"])] 15).1
      ["t1", "t2", "t3"] ["g1", "g2"] (by decide) (by decide)).1,
    ((C4_combo_amended
      [("Emotional Tones", ["t1", "t2", "t3"]), ("Genres", ["g1", "g2"])] 15).1
      ["t1", "t2", "t3"] ["g1", "g2"] (by decide) (by decide)).2⟩

/-- C5: in both files the ranking step is a stable descending sort by
popularity followed by truncation — the final list of the search never
exceeds `max_tracks` elements, the sorted list is pairwise descending in
popularity, the subsequence of any fixed popularity is exactly the
first-seen subsequence of the input (stability), and on the popularity
profile [10, 90, 90, 5] the two 90-tracks come first in their original
relative order. -/
theorem C5_ranking :
    (∀ (spOk : Bool) (analysis : Sections) (mt : Nat)
        (oracle : SearchQuery → Option (List RawItem)),
      (BookTrack.search_spotify_tracks spOk analysis mt oracle).length ≤ mt)
  ∧ (∀ ts : List BookTrack.Track,
      (BookTrack.rankTracks ts).Pairwise (fun a b => b.popularity ≤ a.popularity))
  ∧ (∀ (ts : List BookTrack.Track) (n : Nat),
      (BookTrack.rankTracks ts).filter (fun t => t.popularity = n) =
        ts.filter (fun t => t.popularity = n))
  ∧ (∀ (spOk : Bool) (analysis : Sections) (mt : Nat)
        (oracle : SearchQuery → Option (List RawItem)),
      (BookSoundtrack.search_spotify_tracks spOk analysis mt oracle).length ≤ mt)
  ∧ (∀ ts : List BookSoundtrack.Track,
      (BookSoundtrack.rankTracks ts).Pairwise (fun a b => b.popularity ≤ a.popularity))
  ∧ (∀ (ts : List BookSoundtrack.Track) (n : Nat),
      (BookSoundtrack.rankTracks ts).filter (fun t => t.popularity = n) =
        ts.filter (fun t => t.popularity = n))
  ∧ BookSoundtrack.rankTracks
      [⟨"A", "", "", "", "", 10⟩, ⟨"B", "", "", "", "", 90⟩,
       ⟨"C", "", "", "", "", 90⟩, ⟨"D", "", "", "", "", 5⟩] =
      [⟨"B", "", "", "", "", 90⟩, ⟨"C", "", "", "", "", 90⟩,
       ⟨"A", "", "", "", "", 10⟩, ⟨"D", "", "", "", "", 5⟩] := by
  refine ⟨?_, ?_, ?_, ?_, ?_, ?_, by decide⟩
  · intro spOk analysis mt oracle
    unfold BookTrack.search_spotify_tracks
    by_cases hc : (!spOk || analysis.isEmpty) = true
    · rw [if_pos hc]
      exact Nat.zero_le mt
    · rw [if_neg hc]
      exact List.length_take_le mt _
  · intro ts
    exact sortPopDesc_sorted BookTrack.Track.popularity ts
  · intro ts n
    exact sortPopDesc_filter BookTrack.Track.popularity ts n
  · intro spOk analysis mt oracle
    unfold BookSoundtrack.search_spotify_tracks
    by_cases hc : (!spOk || analysis.isEmpty) = true
    · rw [if_pos hc]
      exact Nat.zero_le mt
    · rw [if_neg hc]
      exact List.length_take_le mt _
  · intro ts
    exact sortPopDesc_sorted BookSoundtrack.Track.popularity ts
  · intro ts n
    exact sortPopDesc_filter BookSoundtrack.Track.popularity ts n

/-- C6, counterexample: stored list values can still contain the literal
bracket characters — for the content "[a], [b]" the outer pair is stripped
and the comma split leaves "a]" and "[b" in the stored list, so the claimed
consequence (no stored value ever contains a bracket) is false. -/
theorem C6_counterexample :
    BookTrack.parse_gemini_analysis "Genres: [a], [b]" =
      some [("Genres", ["a]", "[b"])]
  ∧ ']' ∈ "a]".data := ⟨by decide, by decide⟩

/-- C6, amended: when the content after the colon is wrapped in a matching
bracket pair, exactly one leading and one trailing bracket are stripped
before splitting (for any inner character sequence), as the concrete
wrapped line "Genres: [a, b]" shows for both parsers; stored list values
may nevertheless retain interior bracket characters. -/
theorem C6_bracket_amended :
    (∀ inner : List Char, stripBracketsList ('[' :: (inner ++ [']'])) = inner)
  ∧ BookTrack.parse_gemini_analysis "Genres: [a, b]" = some [("Genres", ["a", "b"])]
  ∧ BookSoundtrack.parse_gemini_analysis "Genres: [a, b]" =
      some [("Genres", ["a", "b"])] := by
  refine ⟨?_, by decide, by decide⟩
  intro inner
  have h2 : ('[' :: (inner ++ [']'])).getLast? = some ']' := by
    rw [← List.cons_append]
    exact List.getLast?_concat _
  unfold stripBracketsList
  rw [if_pos]
  · rw [List.drop_one, List.tail_cons, List.dropLast_concat]
  · rw [h2]
    rfl

/-- C7: the claim that normalization never fails is wrong in the code — on
an item whose album image list has exactly one entry, `BookTrack.py`
evaluates `item["album"]["images"][1]` under the truthiness guard and
raises an IndexError (modelled as `none`); for an empty image list the
album image is the empty string and for two or more images the second
entry, and the preview URL is taken verbatim when present, else empty, as
the claim describes. -/
theorem C7_normalization :
    BookTrack.normalizeItem
      { id := "i", name := "n", artists := ["a"],
        album := { name := "al", images := ["only"] },
        uri := "u", popularity := 50, preview_url := some "p" } = none
  ∧ BookTrack.normalizeItem
      { id := "i", name := "n", artists := ["a"],
        album := { name := "al", images := [] },
        uri := "u", popularity := 50, preview_url := some "p" } =
      some { id := "i", name := "n", artist := "a", album := "al", uri := "u",
             popularity := 50, preview_url := "p", album_image := "" }
  ∧ BookTrack.normalizeItem
      { id := "i", name := "n", artists := ["a"],
        album := { name := "al", images := ["first", "second"] },
        uri := "u", popularity := 50, preview_url := none } =
      some { id := "i", name := "n", artist := "a", album := "al", uri := "u",
             popularity := 50, preview_url := "", album_image := "second" } :=
  ⟨by decide, by decide, by decide⟩

/-- C8: a failing search query is recovered locally in both files — removing
a query on which the oracle fails from anywhere in the query list does not
change the result, so the failing query contributes nothing, every other
query is still executed, and the stage returns the aggregate of the
successful queries. -/
theorem C8_query_failure_skipped :
    (∀ (oracle : SearchQuery → Option (List RawItem))
        (tracks : List BookTrack.Track) (qs1 : List SearchQuery)
        (q : SearchQuery) (qs2 : List SearchQuery),
      oracle q = none →
        BookTrack.runQueries oracle tracks (qs1 ++ q :: qs2) =
          BookTrack.runQueries oracle tracks (qs1 ++ qs2))
  ∧ (∀ (oracle : SearchQuery → Option (List RawItem))
        (tracks : List BookSoundtrack.Track) (qs1 : List SearchQuery)
        (q : SearchQuery) (qs2 : List SearchQuery),
      oracle q = none →
        BookSoundtrack.runQueries oracle tracks (qs1 ++ q :: qs2) =
          BookSoundtrack.runQueries oracle tracks (qs1 ++ qs2)) :=
  ⟨fun oracle tracks qs1 q qs2 h => bt_runQueries_skip oracle tracks qs1 q qs2 h,
   fun oracle tracks qs1 q qs2 h => bs_runQueries_skip oracle tracks qs1 q qs2 h⟩

/-- C8, witness: the recovery theorem applied to an always-failing oracle
and a two-query list. -/
theorem C8_query_failure_witness :
    (fun (_ : SearchQuery) => (none : Option (List RawItem))) ⟨"b", 2⟩ = none
  ∧ BookTrack.runQueries (fun _ => none) ([] : List BookTrack.Track)
      ([⟨"a", 1⟩] ++ ⟨"b", 2⟩ :: []) =
      BookTrack.runQueries (fun _ => none) [] ([⟨"a", 1⟩] ++ [])
  ∧ BookSoundtrack.runQueries (fun _ => none) ([] : List BookSoundtrack.Track)
      ([⟨"a", 1⟩] ++ ⟨"b", 2⟩ :: []) =
      BookSoundtrack.runQueries (fun _ => none) [] ([⟨"a", 1⟩] ++ []) :=
  ⟨rfl,
   C8_query_failure_skipped.1 (fun _ => none) [] [⟨"a", 1⟩] ⟨"b", 2⟩ [] rfl,
   C8_query_failure_skipped.2 (fun _ => none) [] [⟨"a", 1⟩] ⟨"b", 2⟩ [] rfl⟩

/-- C9, counterexample: the created playlist's name carries a "📚 " prefix,
so it is not `"<title> - Literary Soundtrack"`. -/
theorem C9_counterexample :
    BookSoundtrack.playlist_name
      { title := "To the Lighthouse", authors := ["Virginia Woolf"], summary := "s" } ≠
      "To the Lighthouse - Literary Soundtrack" := by decide

/-- C9, amended: for every book record the playlist name is
`"📚 <title> - Literary Soundtrack"` — the book emoji and a space, then the
book's exact title, then the literal suffix. -/
theorem C9_name_amended :
    (∀ b : BookInfo,
      (BookSoundtrack.playlist_name b).data =
        '📚' :: ' ' :: (b.title.data ++ " - Literary Soundtrack".data))
  ∧ BookSoundtrack.playlist_name { title := "Dune", authors := [], summary := "" } =
      "📚 Dune - Literary Soundtrack" := by
  refine ⟨?_, by decide⟩
  intro b
  show ("📚 " ++ b.title ++ " - Literary Soundtrack").data = _
  rw [String.data_append, String.data_append]
  rfl

/-- C10: with a falsy Spotify client or a profile with zero categories, both
files' `search_spotify_tracks` return the empty list immediately, for every
`max_tracks` and independently of the search oracle (no query is consulted,
no failure is possible); the empty outcome itself is returned to the
caller, which classifies it downstream. -/
theorem C10_trivial_empty :
    (∀ (analysis : Sections) (mt : Nat)
        (oracle : SearchQuery → Option (List RawItem)),
      BookTrack.search_spotify_tracks false analysis mt oracle = [])
  ∧ (∀ (spOk : Bool) (mt : Nat) (oracle : SearchQuery → Option (List RawItem)),
      BookTrack.search_spotify_tracks spOk [] mt oracle = [])
  ∧ (∀ (analysis : Sections) (mt : Nat)
        (oracle : SearchQuery → Option (List RawItem)),
      BookSoundtrack.search_spotify_tracks false analysis mt oracle = [])
  ∧ (∀ (spOk : Bool) (mt : Nat) (oracle : SearchQuery → Option (List RawItem)),
      BookSoundtrack.search_spotify_tracks spOk [] mt oracle = []) := by
  refine ⟨?_, ?_, ?_, ?_⟩
  · intro analysis mt oracle
    rfl
  · intro spOk mt oracle
    cases spOk <;> rfl
  · intro analysis mt oracle
    rfl
  · intro spOk mt oracle
    cases spOk <;> rfl

end BookSoundtrackSpec
